import Mathlib

/-!
Shallow embedding of the task-api repository (Node/Express + sqlite3).

The storage layer (src/data/taskStorage.js) persists tasks in a single
sqlite table.  We model the table as a `List Task` in rowid (insertion)
order, and each storage method as a function on that list returning
`Except String` (a rejected promise carries an `Error` whose message the
controller inspects).  SQL execution semantics (WHERE as filter, ORDER BY
as sort, PRIMARY KEY and CHECK constraints on INSERT) is given directly;
the SQL *texts* the layer builds are modelled separately, verbatim, for
the injection-safety claims.

The validation middleware (src/middleware/validation.js) is modelled as
pure functions over request bodies whose fields are either absent, a
string, or a non-string JavaScript value.
-/

namespace TaskApi

/-- Task record as stored in the `tasks` table (all columns are TEXT). -/
structure Task where
  id : String
  title : String
  description : String
  priority : String
  status : String
  createdAt : String
deriving DecidableEq

/-- JavaScript truthiness of an optional string field: `undefined` and the
empty string are falsy, every other string is truthy.  Mirrors the bare
`if (filters.status)` / `if (status)` checks in the source. -/
def truthy : Option String → Bool
  | some s => !(s == "")
  | none => false

/-- JavaScript `x || d` on an optional string, as used by
`taskData.description || ""` and `taskData.priority || "medium"`. -/
def jsOr (o : Option String) (d : String) : String :=
  match o with
  | some s => if s == "" then d else s
  | none => d

/-- VALID_PRIORITIES from src/middleware/validation.js, also the CHECK
constraint enum of the `priority` column. -/
def VALID_PRIORITIES : List String := ["low", "medium", "high"]

/-- VALID_STATUSES from src/middleware/validation.js, also the CHECK
constraint enum of the `status` column. -/
def VALID_STATUSES : List String := ["pending", "completed"]

/-- validSortFields from validateQueryParams in src/middleware/validation.js. -/
def validSortFields : List String := ["title", "priority", "status", "createdAt"]

/-! ### Byte-order comparison used by sqlite's ORDER BY on TEXT columns

sqlite compares TEXT with the BINARY collation (memcmp on the UTF-8
bytes), which on valid UTF-8 coincides with code-point order.  We define
it structurally so that it evaluates inside the kernel. -/

/-- Lexicographic (code-point) order on character lists; `lexLe a b` is
`memcmp a b ≤ 0` on the corresponding UTF-8 strings. -/
def lexLe : List Char → List Char → Bool
  | [], _ => true
  | _ :: _, [] => false
  | a :: as, b :: bs => if a = b then lexLe as bs else decide (a < b)

theorem lexLe_total : ∀ as bs : List Char, lexLe as bs = true ∨ lexLe bs as = true := by
  intro as
  induction as with
  | nil => intro bs; left; rfl
  | cons a as ih =>
    intro bs
    cases bs with
    | nil => right; rfl
    | cons b bs =>
      by_cases hab : a = b
      · subst hab
        rcases ih bs with h | h
        · left; simpa [lexLe] using h
        · right; simpa [lexLe] using h
      · rcases lt_or_gt_of_ne hab with h | h
        · left; simp [lexLe, hab, h]
        · right; simp [lexLe, Ne.symm hab, h]

theorem lexLe_trans : ∀ as bs cs : List Char,
    lexLe as bs = true → lexLe bs cs = true → lexLe as cs = true := by
  intro as
  induction as with
  | nil => intro bs cs _ _; rfl
  | cons a as ih =>
    intro bs cs hab hbc
    cases bs with
    | nil => simp [lexLe] at hab
    | cons b bs =>
      cases cs with
      | nil => simp [lexLe] at hbc
      | cons c cs =>
        by_cases h1 : a = b
        · subst h1
          by_cases h2 : a = c
          · subst h2
            simp only [lexLe, if_pos rfl] at hab hbc ⊢
            exact ih bs cs hab hbc
          · simp only [lexLe, if_pos rfl] at hab
            simp only [lexLe, if_neg h2] at hbc ⊢
            exact hbc
        · simp only [lexLe, if_neg h1, decide_eq_true_eq] at hab
          by_cases h2 : b = c
          · subst h2
            simp only [lexLe, if_neg h1, decide_eq_true_eq]
            exact hab
          · simp only [lexLe, if_neg h2, decide_eq_true_eq] at hbc
            have hac : a < c := lt_trans hab hbc
            simp only [lexLe, if_neg (ne_of_lt hac), decide_eq_true_eq]
            exact hac

/-- Ascending order of tasks on a TEXT column extracted by `k`. -/
def keyAsc (k : Task → String) (a b : Task) : Prop :=
  lexLe (k a).data (k b).data = true

/-- Descending order of tasks on a TEXT column extracted by `k`. -/
def keyDesc (k : Task → String) (a b : Task) : Prop :=
  lexLe (k b).data (k a).data = true

instance (k : Task → String) : DecidableRel (keyAsc k) := fun a b => by
  unfold keyAsc; infer_instance

instance (k : Task → String) : DecidableRel (keyDesc k) := fun a b => by
  unfold keyDesc; infer_instance

instance (k : Task → String) : IsTotal Task (keyAsc k) :=
  ⟨fun a b => lexLe_total (k a).data (k b).data⟩

instance (k : Task → String) : IsTotal Task (keyDesc k) :=
  ⟨fun a b => (lexLe_total (k b).data (k a).data).symm.symm⟩

instance (k : Task → String) : IsTrans Task (keyAsc k) :=
  ⟨fun _ _ _ hab hbc => lexLe_trans _ _ _ hab hbc⟩

instance (k : Task → String) : IsTrans Task (keyDesc k) :=
  ⟨fun _ _ _ hab hbc => lexLe_trans _ _ _ hbc hab⟩

/-! ### Storage layer: src/data/taskStorage.js -/

/-- Filters object handed to `getAllTasks`; each key may be absent. -/
structure Filters where
  status : Option String
  priority : Option String
  sortBy : Option String
deriving DecidableEq

/-- buildWhereClause (taskStorage.js lines 94-112): SQL text with `?`
placeholders for the values, and the bound-parameter list. -/
def buildWhereClause (f : Filters) : String × List String :=
  let conditions :=
    (if truthy f.status then ["status = ?"] else []) ++
    (if truthy f.priority then ["priority = ?"] else [])
  let params :=
    (if truthy f.status then [f.status.getD ""] else []) ++
    (if truthy f.priority then [f.priority.getD ""] else [])
  (if conditions.length > 0 then "WHERE " ++ String.intercalate " AND " conditions else "",
   params)

/-- buildOrderByClause (taskStorage.js lines 114-121).  Note the
`sortBy` string is spliced into the SQL text verbatim. -/
def buildOrderByClause (sortBy : Option String) : String :=
  match sortBy with
  | none => ""
  | some s =>
    if s == "" then ""
    else if s == "createdAt" then "ORDER BY createdAt DESC"
    else "ORDER BY " ++ s ++ " ASC"

/-- Full SQL text built by getAllTasks (taskStorage.js line 127). -/
def getAllTasksSql (f : Filters) : String :=
  "SELECT * FROM tasks " ++ (buildWhereClause f).1 ++ " " ++ buildOrderByClause f.sortBy

/-- SQL text of getTaskById (taskStorage.js line 178). -/
def getTaskByIdSql : String := "SELECT * FROM tasks WHERE id = ?"

/-- SQL text of updateTaskStatus (taskStorage.js line 160). -/
def updateTaskStatusSql : String := "UPDATE tasks SET status = ? WHERE id = ?"

/-- SQL text of deleteTask (taskStorage.js line 172). -/
def deleteTaskSql : String := "DELETE FROM tasks WHERE id = ?"

/-- SQL text of createTask (taskStorage.js lines 141-144), whitespace
normalised. -/
def insertTaskSql : String :=
  "INSERT INTO tasks (id, title, description, priority, status, createdAt) VALUES (?, ?, ?, ?, ?, ?)"

/-- Row predicate denoted by the WHERE clause `buildWhereClause` builds:
an equality condition per truthy filter, conjoined with AND. -/
def matchesFilters (f : Filters) (t : Task) : Bool :=
  (!truthy f.status || t.status == f.status.getD "") &&
  (!truthy f.priority || t.priority == f.priority.getD "")

/-- Semantics of the ORDER BY clause a given `sortBy` produces.  A
non-column `sortBy` makes sqlite reject the statement (`none`).  Any of
the six column names is accepted by sqlite; `createdAt` sorts DESC, the
rest ASC (taskStorage.js lines 114-121). -/
def applyOrder (sortBy : Option String) (rows : List Task) : Option (List Task) :=
  match sortBy with
  | none => some rows
  | some s =>
    if s == "" then some rows
    else if s == "createdAt" then some (rows.insertionSort (keyDesc Task.createdAt))
    else if s == "title" then some (rows.insertionSort (keyAsc Task.title))
    else if s == "priority" then some (rows.insertionSort (keyAsc Task.priority))
    else if s == "status" then some (rows.insertionSort (keyAsc Task.status))
    else if s == "id" then some (rows.insertionSort (keyAsc Task.id))
    else if s == "description" then some (rows.insertionSort (keyAsc Task.description))
    else none

/-- getAllTasks (taskStorage.js lines 123-129): `SELECT * FROM tasks
<where> <orderBy>` = filter then sort. -/
def getAllTasks (f : Filters) (rows : List Task) : Option (List Task) :=
  applyOrder f.sortBy (rows.filter (matchesFilters f))

/-- getTaskById (taskStorage.js lines 177-186): `db.get` returns the
first matching row; no row rejects with "Task not found". -/
def getTaskById (rows : List Task) (taskId : String) : Except String Task :=
  match rows.find? (fun t => t.id == taskId) with
  | some t => Except.ok t
  | none => Except.error "Task not found"

/-- Create input as passed by the controller to storage (title always
present there; description/priority possibly undefined). -/
structure TaskInput where
  title : String
  description : Option String
  priority : Option String
deriving DecidableEq

/-- createTask (taskStorage.js lines 131-156): builds the record with
defaults, INSERTs it, returns the in-memory record.  The INSERT fails if
the PRIMARY KEY on `id` or a CHECK constraint is violated (the precise
sqlite error-checking order is not modelled; any violation rejects). -/
def createTask (rows : List Task) (input : TaskInput) (newId createdAt : String) :
    Except String (Task × List Task) :=
  let newTask : Task :=
    { id := newId
      title := input.title
      description := jsOr input.description ""
      priority := jsOr input.priority "medium"
      status := "pending"
      createdAt := createdAt }
  if rows.any (fun t => t.id == newId) then
    Except.error "UNIQUE constraint failed: tasks.id"
  else if !(VALID_PRIORITIES.contains newTask.priority && VALID_STATUSES.contains newTask.status) then
    Except.error "CHECK constraint failed"
  else
    Except.ok (newTask, rows ++ [newTask])

/-- updateTaskStatus (taskStorage.js lines 158-168): UPDATE sets status
on every row whose id matches; `result.changes = 0` rejects with "Task
not found"; otherwise the post-update record is fetched fresh. -/
def updateTaskStatus (rows : List Task) (taskId : String) (status : Bool) :
    Except String (Task × List Task) :=
  let newStatus := if status then "completed" else "pending"
  let rows' := rows.map (fun t => if t.id == taskId then { t with status := newStatus } else t)
  if (rows.filter (fun t => t.id == taskId)).length == 0 then
    Except.error "Task not found"
  else
    match getTaskById rows' taskId with
    | Except.ok t => Except.ok (t, rows')
    | Except.error e => Except.error e

/-- deleteTask (taskStorage.js lines 170-175): fetch first (throws if
absent), then DELETE the matching rows, return the pre-fetched record. -/
def deleteTask (rows : List Task) (taskId : String) :
    Except String (Task × List Task) :=
  match getTaskById rows taskId with
  | Except.error e => Except.error e
  | Except.ok task => Except.ok (task, rows.filter (fun t => !(t.id == taskId)))

/-! ### Validation layer: src/middleware/validation.js -/

/-- JavaScript value of a request-body field: a string, or some
non-string value.  The middleware only distinguishes these two via
`typeof x !== "string"`. -/
inductive JsVal where
  | vstr (s : String)
  | vother
deriving DecidableEq

/-- Request body of POST /api/tasks; each field may be absent. -/
structure CreateBody where
  title : Option JsVal
  description : Option JsVal
  priority : Option JsVal
deriving DecidableEq

/-- ECMAScript WhiteSpace / LineTerminator characters removed by
`String.prototype.trim`. -/
def isJsWsChar (c : Char) : Bool :=
  c == ' ' || c == '\t' || c == '\n' || c == '\r' ||
  c.toNat == 0x0b || c.toNat == 0x0c ||
  c.toNat == 0xa0 || c.toNat == 0x1680 ||
  (0x2000 ≤ c.toNat && c.toNat ≤ 0x200a) ||
  c.toNat == 0x2028 || c.toNat == 0x2029 ||
  c.toNat == 0x202f || c.toNat == 0x205f ||
  c.toNat == 0x3000 || c.toNat == 0xfeff

/-- JavaScript `trim()` on the character list. -/
def jsTrimList (cs : List Char) : List Char :=
  ((cs.dropWhile isJsWsChar).reverse.dropWhile isJsWsChar).reverse

/-- JavaScript `s.trim()`. -/
def jsTrim (s : String) : String := ⟨jsTrimList s.data⟩

/-- sanitizeString (validation.js lines 308-311) on a string:
`str.trim().replace(angle-bracket class, "")`. -/
def sanitizeString (s : String) : String :=
  ⟨(jsTrimList s.data).filter (fun c => !(c == '<' || c == '>'))⟩

/-- sanitizeString on an arbitrary value: non-strings pass through. -/
def sanitizeJsVal : JsVal → JsVal
  | JsVal.vstr s => JsVal.vstr (sanitizeString s)
  | JsVal.vother => JsVal.vother

def titleRequiredMsg : String := "Title is required and must be a non-empty string"

def titleTooLongMsg : String := "Title must not exceed 200 characters"

def descStringMsg : String := "Description must be a string"

def descTooLongMsg : String := "Description must not exceed 1000 characters"

def priorityInvalidMsg : String := "Priority must be one of: low, medium, high"

/-- Errors pushed for the title by validateCreateTask (validation.js
lines 324-329): `!title || typeof title !== "string" ||
title.trim().length === 0` (for a string, falsiness is emptiness),
else-if on the 200-character bound. -/
def titleErrors (title : Option JsVal) : List String :=
  match title with
  | some (JsVal.vstr s) =>
    if s == "" || (jsTrim s).length == 0 then [titleRequiredMsg]
    else if (jsTrim s).length > 200 then [titleTooLongMsg]
    else []
  | _ => [titleRequiredMsg]

/-- Errors pushed for the description (validation.js lines 331-338). -/
def descriptionErrors (description : Option JsVal) : List String :=
  match description with
  | none => []
  | some (JsVal.vstr s) => if s.length > 1000 then [descTooLongMsg] else []
  | some JsVal.vother => [descStringMsg]

/-- Errors pushed for the priority (validation.js lines 340-345);
`VALID_PRIORITIES.includes` is false on any non-member, strings or not. -/
def priorityErrors (priority : Option JsVal) : List String :=
  match priority with
  | none => []
  | some (JsVal.vstr s) => if VALID_PRIORITIES.contains s then [] else [priorityInvalidMsg]
  | some JsVal.vother => [priorityInvalidMsg]

/-- Sanitization of the description on the success path (validation.js
lines 358-360): applied only when the original value is truthy.  The
non-string case never survives validation. -/
def sanitizeDescription : Option JsVal → Option JsVal
  | some (JsVal.vstr s) =>
    if s == "" then some (JsVal.vstr s) else some (JsVal.vstr (sanitizeString s))
  | o => o

/-- validateCreateTask (validation.js lines 320-363): all three checks
run unconditionally, their errors are accumulated in order; a non-empty
list is returned as one 400 ValidationError, otherwise the body is
sanitized in place and passed on. -/
def validateCreateTask (b : CreateBody) : Except (List String) CreateBody :=
  let errors := titleErrors b.title ++ descriptionErrors b.description ++ priorityErrors b.priority
  if errors.length > 0 then Except.error errors
  else Except.ok
    { title := b.title.map sanitizeJsVal
      description := sanitizeDescription b.description
      priority := b.priority }

/-! ### Id validation and generation -/

/-- Decimal-digit character class of the id regex. -/
def isDigitChar (c : Char) : Bool := decide ('0' ≤ c) && decide (c ≤ '9')

/-- Character class of the id-suffix part of the regex. -/
def isLowerAlnumChar (c : Char) : Bool :=
  (decide ('0' ≤ c) && decide (c ≤ '9')) || (decide ('a' ≤ c) && decide (c ≤ 'z'))

/-- Matcher for the anchored regex `task_`, one-or-more digits, `_`,
one-or-more of `[a-z0-9]` (validation.js line 316).  Both repetitions
are followed by a character outside their class, so greedy matching
needs no backtracking and takeWhile/dropWhile are exact. -/
def isValidIdChars : List Char → Bool
  | 't' :: 'a' :: 's' :: 'k' :: '_' :: rest =>
    let digits := rest.takeWhile isDigitChar
    let rest2 := rest.dropWhile isDigitChar
    !digits.isEmpty &&
      (match rest2 with
       | '_' :: suffix => !suffix.isEmpty && suffix.all isLowerAlnumChar
       | _ => false)
  | _ => false

/-- isValidId (validation.js lines 314-318); the length check is
subsumed by the anchored regex. -/
def isValidId (id : String) : Bool := isValidIdChars id.data

/-- Base-36 digit character, as produced by `Number.prototype.toString(36)`
(digits then lowercase letters). -/
def digitChar36 (d : Nat) : Char :=
  if d < 10 then Char.ofNat (48 + d) else Char.ofNat (87 + d)

/-- `Math.random().toString(36)`: the double in `[0,1)` prints as `"0"`
when zero, otherwise as `"0."` followed by its base-36 fraction digits
`ds` (most significant first, no trailing zeros). -/
def randToString36 (ds : List Nat) : String :=
  if ds.isEmpty then "0" else "0." ++ ⟨ds.map digitChar36⟩

/-- JavaScript `String.prototype.substr(start, len)` for in-range
non-negative arguments. -/
def jsSubstr (s : String) (start len : Nat) : String :=
  ⟨(s.data.drop start).take len⟩

/-- generateId (taskStorage.js lines 90-92), parameterised by the values
the environment supplies: `now = Date.now()` and the base-36 fraction
digits `ds` of the `Math.random()` draw. -/
def generateId (now : Nat) (ds : List Nat) : String :=
  "task_" ++ Nat.repr now ++ "_" ++ jsSubstr (randToString36 ds) 2 9

/-! ### Query-parameter validation and the controller glue -/

/-- Query string of GET /api/tasks; each parameter may be absent. -/
structure Query where
  status : Option String
  priority : Option String
  sortBy : Option String
deriving DecidableEq

def statusFilterMsg : String := "Status filter must be one of: pending, completed"

def priorityFilterMsg : String := "Priority filter must be one of: low, medium, high"

def sortFieldMsg : String := "Sort field must be one of: title, priority, status, createdAt"

/-- validateQueryParams (validation.js lines 415-447): every check is
guarded by truthiness, so an absent or empty parameter is never an
error; all violations are collected. -/
def validateQueryParams (q : Query) : List String :=
  (if truthy q.status && !(VALID_STATUSES.contains (q.status.getD "")) then [statusFilterMsg] else []) ++
  (if truthy q.priority && !(VALID_PRIORITIES.contains (q.priority.getD "")) then [priorityFilterMsg] else []) ++
  (if truthy q.sortBy && !(validSortFields.contains (q.sortBy.getD "")) then [sortFieldMsg] else [])

/-- Filter object built by the getAllTasks controller
(taskController.js lines 11-14): a key is set only when the query
parameter is truthy. -/
def controllerFilters (q : Query) : Filters :=
  { status := if truthy q.status then q.status else none
    priority := if truthy q.priority then q.priority else none
    sortBy := if truthy q.sortBy then q.sortBy else none }

/-- GET /api/tasks pipeline: validateQueryParams middleware, then the
controller calling storage.  `Except.error` is the 400 response,
`Except.ok` carries the storage result. -/
def listPipeline (q : Query) (rows : List Task) : Except (List String) (Option (List Task)) :=
  let errors := validateQueryParams q
  if errors.length > 0 then Except.error errors
  else Except.ok (getAllTasks (controllerFilters q) rows)

/-- String carried by a body field, defaulting for the non-string case
that cannot survive validation. -/
def jsValStr : JsVal → String
  | JsVal.vstr s => s
  | JsVal.vother => ""

/-- taskData object built by the createTask controller
(taskController.js lines 31-37) from the validated body. -/
def toTaskInput (b : CreateBody) : TaskInput :=
  { title := (b.title.map jsValStr).getD ""
    description := b.description.map jsValStr
    priority := b.priority.map jsValStr }

/-- POST /api/tasks pipeline: validateCreateTask middleware, then the
controller calling storage with the sanitized body. -/
def createPipeline (rows : List Task) (b : CreateBody) (newId createdAt : String) :
    Except (List String) (Task × List Task) :=
  match validateCreateTask b with
  | Except.error es => Except.error es
  | Except.ok b' =>
    match createTask rows (toTaskInput b') newId createdAt with
    | Except.error e => Except.error [e]
    | Except.ok r => Except.ok r

/-! ### Helper lemmas -/

theorem find?_cons_pos (p : Task → Bool) (a : Task) (l : List Task) (h : p a = true) :
    List.find? p (a :: l) = some a := List.find?_cons_of_pos l h

theorem find?_cons_neg (p : Task → Bool) (a : Task) (l : List Task) (h : ¬ p a = true) :
    List.find? p (a :: l) = List.find? p l := List.find?_cons_of_neg l h

theorem find?_update_map (rows : List Task) (taskId ns : String) :
    (rows.map (fun t => if t.id == taskId then { t with status := ns } else t)).find?
        (fun t => t.id == taskId) =
      (rows.find? (fun t => t.id == taskId)).map (fun t => { t with status := ns }) := by
  induction rows with
  | nil => rfl
  | cons u rows ih =>
    simp only [List.map_cons]
    by_cases hu : (u.id == taskId) = true
    · rw [if_pos hu]
      rw [find?_cons_pos (fun t => t.id == taskId) { u with status := ns } _ hu,
        find?_cons_pos (fun t => t.id == taskId) u _ hu]
      rfl
    · rw [if_neg hu]
      rw [find?_cons_neg (fun t => t.id == taskId) u _ hu,
        find?_cons_neg (fun t => t.id == taskId) u _ hu]
      exact ih

/-! ### Claim theorems for the storage layer -/

/-- C1: for every valid create input, `createTask` followed by
`getTaskById` on the returned id yields the very record `createTask`
returned, with the documented field values (status "pending", defaulted
description/priority, the generated id and timestamp). -/
theorem C1_create_then_get_roundtrip :
    ∀ (rows : List Task) (input : TaskInput) (newId ca : String) (t : Task) (rows' : List Task),
    createTask rows input newId ca = Except.ok (t, rows') →
    getTaskById rows' newId = Except.ok t ∧
    t.id = newId ∧ t.title = input.title ∧ t.description = jsOr input.description "" ∧
    t.priority = jsOr input.priority "medium" ∧ t.status = "pending" ∧ t.createdAt = ca := by
  intro rows input newId ca t rows' h
  simp only [createTask] at h
  split at h
  · simp at h
  · split at h
    · simp at h
    · rename_i hfresh _
      simp only [Except.ok.injEq, Prod.mk.injEq] at h
      obtain ⟨ht, hrows⟩ := h
      subst ht
      subst hrows
      refine ⟨?_, rfl, rfl, rfl, rfl, rfl, rfl⟩
      have hnone : rows.find? (fun u => u.id == newId) = none := by
        apply List.find?_eq_none.mpr
        intro x hx
        have := List.any_eq_false.mp (Bool.of_not_eq_true hfresh) x hx
        simpa using this
      unfold getTaskById
      rw [List.find?_append, hnone]
      simp [List.find?_cons]

/-- Witness for C1 at a concrete input. -/
theorem C1_witness :
    getTaskById
        [{ id := "task_1_a", title := "Buy milk", description := "", priority := "low",
           status := "pending", createdAt := "2024-01-01T00:00:00.000Z" }] "task_1_a" =
      Except.ok
        { id := "task_1_a", title := "Buy milk", description := "", priority := "low",
          status := "pending", createdAt := "2024-01-01T00:00:00.000Z" } :=
  (C1_create_then_get_roundtrip [] ⟨"Buy milk", none, some "low"⟩ "task_1_a"
    "2024-01-01T00:00:00.000Z"
    { id := "task_1_a", title := "Buy milk", description := "", priority := "low",
      status := "pending", createdAt := "2024-01-01T00:00:00.000Z" }
    [{ id := "task_1_a", title := "Buy milk", description := "", priority := "low",
       status := "pending", createdAt := "2024-01-01T00:00:00.000Z" }] (by rfl)).1

/-- C4: deleting a stored id returns the record fetched immediately
before the delete and removes it (a subsequent fetch is NotFound); an
absent id propagates the NotFound error. -/
theorem C4_delete_returns_prior_record :
    ∀ (rows : List Task) (taskId : String),
    (getTaskById rows taskId = Except.error "Task not found" →
      deleteTask rows taskId = Except.error "Task not found") ∧
    (∀ (t : Task) (rows' : List Task), deleteTask rows taskId = Except.ok (t, rows') →
      getTaskById rows taskId = Except.ok t ∧
      getTaskById rows' taskId = Except.error "Task not found") := by
  intro rows taskId
  constructor
  · intro habs
    unfold deleteTask
    rw [habs]
  · intro t rows' h
    unfold deleteTask at h
    split at h
    · simp at h
    · rename_i task hfound
      simp only [Except.ok.injEq, Prod.mk.injEq] at h
      obtain ⟨ht, hrows⟩ := h
      subst ht
      subst hrows
      refine ⟨hfound, ?_⟩
      unfold getTaskById
      have : (rows.filter (fun u => !(u.id == taskId))).find? (fun u => u.id == taskId) = none := by
        apply List.find?_eq_none.mpr
        intro x hx
        have := (List.mem_filter.mp hx).2
        simpa using this
      rw [this]

/-- Witness for C4 at a concrete input. -/
theorem C4_witness :
    getTaskById
        [{ id := "task_2_b", title := "t", description := "", priority := "medium",
           status := "pending", createdAt := "2024" }] "task_2_b" =
      Except.ok
        { id := "task_2_b", title := "t", description := "", priority := "medium",
          status := "pending", createdAt := "2024" } :=
  ((C4_delete_returns_prior_record
      [{ id := "task_2_b", title := "t", description := "", priority := "medium",
         status := "pending", createdAt := "2024" }] "task_2_b").2
    { id := "task_2_b", title := "t", description := "", priority := "medium",
      status := "pending", createdAt := "2024" }
    [] (by rfl)).1

/-- C5: a successful status update returns the freshly fetched record
whose status is "completed" for `true` and "pending" for `false`, all
its other fields taken unchanged from the pre-update record, and every
row of the table is unchanged except that the rows with the target id
have exactly their status replaced. -/
theorem C5_update_status_frame :
    ∀ (rows : List Task) (taskId : String) (b : Bool) (t : Task) (rows' : List Task),
    updateTaskStatus rows taskId b = Except.ok (t, rows') →
    t.status = (if b then "completed" else "pending") ∧
    (∃ pre, getTaskById rows taskId = Except.ok pre ∧
      t.id = pre.id ∧ t.title = pre.title ∧ t.description = pre.description ∧
      t.priority = pre.priority ∧ t.createdAt = pre.createdAt) ∧
    rows'.length = rows.length ∧
    (∀ (i : Nat) (u : Task), rows[i]? = some u →
      ((u.id == taskId) = false → rows'[i]? = some u) ∧
      ((u.id == taskId) = true →
        rows'[i]? = some { u with status := if b then "completed" else "pending" })) := by
  intro rows taskId b t rows' h
  simp only [updateTaskStatus] at h
  split at h
  · simp at h
  · split at h
    · rename_i t' hfound
      simp only [Except.ok.injEq, Prod.mk.injEq] at h
      obtain ⟨ht, hrows⟩ := h
      subst ht
      subst hrows
      unfold getTaskById at hfound
      rw [find?_update_map] at hfound
      split at hfound
      · rename_i found hsome
        rw [Option.map_eq_some'] at hsome
        obtain ⟨pre, hpre, hmap⟩ := hsome
        simp only [Except.ok.injEq] at hfound
        refine ⟨?_, ⟨pre, ?_, ?_⟩, ?_, ?_⟩
        · rw [← hfound, ← hmap]
        · unfold getTaskById
          rw [hpre]
        · rw [← hfound, ← hmap]
          exact ⟨rfl, rfl, rfl, rfl, rfl⟩
        · simp
        · intro i u hu
          constructor
          · intro hne
            rw [List.getElem?_map, hu, Option.map_some']
            rw [if_neg (by simp [hne])]
          · intro heq
            rw [List.getElem?_map, hu, Option.map_some']
            rw [if_pos heq]
      · simp at hfound
    · simp at h

/-- Witness for C5 at a concrete input. -/
theorem C5_witness :
    ({ id := "task_3_c", title := "t", description := "d", priority := "high",
       status := "completed", createdAt := "2024" } : Task).status =
      (if true then "completed" else "pending") :=
  (C5_update_status_frame
    [{ id := "task_3_c", title := "t", description := "d", priority := "high",
       status := "pending", createdAt := "2024" }] "task_3_c" true
    { id := "task_3_c", title := "t", description := "d", priority := "high",
      status := "completed", createdAt := "2024" }
    [{ id := "task_3_c", title := "t", description := "d", priority := "high",
       status := "completed", createdAt := "2024" }] (by rfl)).1

/-- C2: a successful `getAllTasks` returns exactly (up to the ordering
applied afterwards) the rows matched by the conjunctive equality filter:
with only a status filter exactly the rows of that status, with only a
priority filter exactly those of that priority, with both the
intersection, and the empty list (not an error) when nothing matches. -/
theorem C2_filter_exactness :
    ∀ (f : Filters) (rows out : List Task), getAllTasks f rows = some out →
    out.Perm (rows.filter (matchesFilters f)) ∧
    (∀ s, f.status = some s → s ≠ "" → truthy f.priority = false →
      rows.filter (matchesFilters f) = rows.filter (fun t => t.status == s)) ∧
    (∀ p, f.priority = some p → p ≠ "" → truthy f.status = false →
      rows.filter (matchesFilters f) = rows.filter (fun t => t.priority == p)) ∧
    (∀ s p, f.status = some s → s ≠ "" → f.priority = some p → p ≠ "" →
      rows.filter (matchesFilters f) =
        rows.filter (fun t => t.status == s && t.priority == p)) ∧
    ((∀ t ∈ rows, matchesFilters f t = false) → out = []) := by
  intro f rows out h
  have hperm : out.Perm (rows.filter (matchesFilters f)) := by
    unfold getAllTasks applyOrder at h
    split at h
    · simp only [Option.some.injEq] at h
      subst h
      exact List.Perm.refl _
    · split_ifs at h <;>
        (simp only [Option.some.injEq] at h; subst h;
         first
           | exact List.Perm.refl _
           | exact List.perm_insertionSort _ _)
  have truthy_some : ∀ s : String, truthy (some s) = !(s == "") := fun _ => rfl
  refine ⟨hperm, ?_, ?_, ?_, ?_⟩
  · intro s hs hne hpr
    apply List.filter_congr
    intro t _
    have : (s == "") = false := by simp [hne]
    simp [matchesFilters, hs, hpr, truthy_some, this]
  · intro p hp hne hst
    apply List.filter_congr
    intro t _
    have : (p == "") = false := by simp [hne]
    simp [matchesFilters, hp, hst, truthy_some, this]
  · intro s p hs hnes hp hnep
    apply List.filter_congr
    intro t _
    have h1 : (s == "") = false := by simp [hnes]
    have h2 : (p == "") = false := by simp [hnep]
    simp [matchesFilters, hs, hp, truthy_some, h1, h2]
  · intro hall
    have hnil : rows.filter (matchesFilters f) = [] :=
      List.filter_eq_nil_iff.mpr (fun a ha => by simp [hall a ha])
    rw [hnil] at hperm
    exact List.Perm.eq_nil hperm

/-- Witness for C2 at a concrete input. -/
theorem C2_witness :
    ([{ id := "task_2_b", title := "b", description := "", priority := "high",
        status := "completed", createdAt := "2024" }] : List Task).Perm
      (([{ id := "task_1_a", title := "a", description := "", priority := "low",
           status := "pending", createdAt := "2023" },
         { id := "task_2_b", title := "b", description := "", priority := "high",
           status := "completed", createdAt := "2024" }] : List Task).filter
        (matchesFilters ⟨some "completed", none, none⟩)) :=
  (C2_filter_exactness ⟨some "completed", none, none⟩
    [{ id := "task_1_a", title := "a", description := "", priority := "low",
       status := "pending", createdAt := "2023" },
     { id := "task_2_b", title := "b", description := "", priority := "high",
       status := "completed", createdAt := "2024" }]
    [{ id := "task_2_b", title := "b", description := "", priority := "high",
       status := "completed", createdAt := "2024" }] (by rfl)).1

/-- C3: a successful `getAllTasks` with sortBy "createdAt" lists tasks
newest first (non-increasing creation time), and with sortBy "title",
"priority" or "status" in non-decreasing lexical order of that field. -/
theorem C3_sort_order :
    ∀ (f : Filters) (rows out : List Task), getAllTasks f rows = some out →
    (f.sortBy = some "createdAt" → out.Sorted (keyDesc Task.createdAt)) ∧
    (f.sortBy = some "title" → out.Sorted (keyAsc Task.title)) ∧
    (f.sortBy = some "priority" → out.Sorted (keyAsc Task.priority)) ∧
    (f.sortBy = some "status" → out.Sorted (keyAsc Task.status)) := by
  intro f rows out h
  unfold getAllTasks at h
  refine ⟨?_, ?_, ?_, ?_⟩ <;> intro hsb <;> rw [hsb] at h
  · have h2 : some ((rows.filter (matchesFilters f)).insertionSort (keyDesc Task.createdAt)) =
        some out := h
    injection h2 with h3
    subst h3
    exact List.sorted_insertionSort _ _
  · have h2 : some ((rows.filter (matchesFilters f)).insertionSort (keyAsc Task.title)) =
        some out := h
    injection h2 with h3
    subst h3
    exact List.sorted_insertionSort _ _
  · have h2 : some ((rows.filter (matchesFilters f)).insertionSort (keyAsc Task.priority)) =
        some out := h
    injection h2 with h3
    subst h3
    exact List.sorted_insertionSort _ _
  · have h2 : some ((rows.filter (matchesFilters f)).insertionSort (keyAsc Task.status)) =
        some out := h
    injection h2 with h3
    subst h3
    exact List.sorted_insertionSort _ _

/-- Witness for C3 at a concrete input. -/
theorem C3_witness :
    ([{ id := "task_2_b", title := "b", description := "", priority := "high",
        status := "completed", createdAt := "2024" },
      { id := "task_1_a", title := "a", description := "", priority := "low",
        status := "pending", createdAt := "2023" }] : List Task).Sorted
      (keyDesc Task.createdAt) :=
  (C3_sort_order ⟨none, none, some "createdAt"⟩
    [{ id := "task_1_a", title := "a", description := "", priority := "low",
       status := "pending", createdAt := "2023" },
     { id := "task_2_b", title := "b", description := "", priority := "high",
       status := "completed", createdAt := "2024" }]
    [{ id := "task_2_b", title := "b", description := "", priority := "high",
       status := "completed", createdAt := "2024" },
     { id := "task_1_a", title := "a", description := "", priority := "low",
       status := "pending", createdAt := "2023" }] (by rfl)).1 rfl

/-! ### C6: create validation collects every violated rule -/

/-- Title rule violated: absent, non-string, or empty after trimming
(one shared message in the source). -/
def titleMissingB (b : CreateBody) : Bool :=
  match b.title with
  | some (JsVal.vstr s) => s == "" || (jsTrim s).length == 0
  | _ => true

/-- Title length rule violated: a usable title longer than 200
characters after trimming. -/
def titleTooLongB (b : CreateBody) : Bool :=
  match b.title with
  | some (JsVal.vstr s) =>
    !(s == "" || (jsTrim s).length == 0) && decide ((jsTrim s).length > 200)
  | _ => false

/-- Description type rule violated: present but not a string. -/
def descNotStringB (b : CreateBody) : Bool :=
  match b.description with
  | some JsVal.vother => true
  | _ => false

/-- Description length rule violated: a string longer than 1000 characters. -/
def descTooLongB (b : CreateBody) : Bool :=
  match b.description with
  | some (JsVal.vstr s) => decide (s.length > 1000)
  | _ => false

/-- Priority rule violated: present but not one of the three enum values. -/
def priorityInvalidB (b : CreateBody) : Bool :=
  match b.priority with
  | none => false
  | some (JsVal.vstr s) => !(VALID_PRIORITIES.contains s)
  | some JsVal.vother => true

theorem titleErrors_of_missing (b : CreateBody) (h : titleMissingB b = true) :
    titleErrors b.title = [titleRequiredMsg] := by
  unfold titleMissingB at h
  unfold titleErrors
  cases hb : b.title with
  | none => rfl
  | some v =>
    cases v with
    | vstr s =>
      rw [hb] at h
      dsimp only at h ⊢
      rw [if_pos h]
    | vother => rfl

theorem titleErrors_of_tooLong (b : CreateBody) (h : titleTooLongB b = true) :
    titleErrors b.title = [titleTooLongMsg] := by
  unfold titleTooLongB at h
  unfold titleErrors
  cases hb : b.title with
  | none => rw [hb] at h; simp at h
  | some v =>
    cases v with
    | vstr s =>
      rw [hb] at h
      dsimp only at h ⊢
      simp only [Bool.and_eq_true, Bool.not_eq_true', decide_eq_true_eq] at h
      rw [if_neg (by simp [h.1]), if_pos h.2]
    | vother => rw [hb] at h; simp at h

theorem descriptionErrors_of_notString (b : CreateBody) (h : descNotStringB b = true) :
    descriptionErrors b.description = [descStringMsg] := by
  unfold descNotStringB at h
  unfold descriptionErrors
  cases hb : b.description with
  | none => rw [hb] at h; simp at h
  | some v =>
    cases v with
    | vstr s => rw [hb] at h; simp at h
    | vother => rfl

theorem descriptionErrors_of_tooLong (b : CreateBody) (h : descTooLongB b = true) :
    descriptionErrors b.description = [descTooLongMsg] := by
  unfold descTooLongB at h
  unfold descriptionErrors
  cases hb : b.description with
  | none => rw [hb] at h; simp at h
  | some v =>
    cases v with
    | vstr s =>
      rw [hb] at h
      dsimp only at h ⊢
      simp only [decide_eq_true_eq] at h
      rw [if_pos h]
    | vother => rw [hb] at h; simp at h

theorem priorityErrors_of_invalid (b : CreateBody) (h : priorityInvalidB b = true) :
    priorityErrors b.priority = [priorityInvalidMsg] := by
  unfold priorityInvalidB at h
  unfold priorityErrors
  cases hb : b.priority with
  | none => rw [hb] at h; simp at h
  | some v =>
    cases v with
    | vstr s =>
      rw [hb] at h
      dsimp only at h ⊢
      simp only [Bool.not_eq_true'] at h
      rw [if_neg (by rw [h]; simp)]
    | vother => rfl

/-- C6: create validation runs all rules, returning one error whose
details list contains the message of every violated rule (never
short-circuiting), and succeeds exactly when no rule is violated. -/
theorem C6_validation_collects_all_errors :
    ∀ b : CreateBody,
    (∀ es, validateCreateTask b = Except.error es →
      es ≠ [] ∧
      (titleMissingB b = true → titleRequiredMsg ∈ es) ∧
      (titleTooLongB b = true → titleTooLongMsg ∈ es) ∧
      (descNotStringB b = true → descStringMsg ∈ es) ∧
      (descTooLongB b = true → descTooLongMsg ∈ es) ∧
      (priorityInvalidB b = true → priorityInvalidMsg ∈ es)) ∧
    (∀ b', validateCreateTask b = Except.ok b' →
      titleMissingB b = false ∧ titleTooLongB b = false ∧ descNotStringB b = false ∧
      descTooLongB b = false ∧ priorityInvalidB b = false) := by
  intro b
  constructor
  · intro es h
    simp only [validateCreateTask] at h
    split at h
    · rename_i hlen
      simp only [Except.error.injEq] at h
      subst h
      refine ⟨?_, ?_, ?_, ?_, ?_, ?_⟩
      · intro hnil
        rw [hnil] at hlen
        simp at hlen
      · intro hv
        refine List.mem_append_left _ (List.mem_append_left _ ?_)
        rw [titleErrors_of_missing b hv]
        exact List.mem_singleton_self _
      · intro hv
        refine List.mem_append_left _ (List.mem_append_left _ ?_)
        rw [titleErrors_of_tooLong b hv]
        exact List.mem_singleton_self _
      · intro hv
        refine List.mem_append_left _ (List.mem_append_right _ ?_)
        rw [descriptionErrors_of_notString b hv]
        exact List.mem_singleton_self _
      · intro hv
        refine List.mem_append_left _ (List.mem_append_right _ ?_)
        rw [descriptionErrors_of_tooLong b hv]
        exact List.mem_singleton_self _
      · intro hv
        refine List.mem_append_right _ ?_
        rw [priorityErrors_of_invalid b hv]
        exact List.mem_singleton_self _
    · simp at h
  · intro b' h
    simp only [validateCreateTask] at h
    split at h
    · simp at h
    · rename_i hlen
      have hz : (titleErrors b.title ++ descriptionErrors b.description ++
          priorityErrors b.priority) = [] := by
        have := Nat.eq_zero_of_not_pos hlen
        exact List.eq_nil_of_length_eq_zero this
      rw [List.append_eq_nil, List.append_eq_nil] at hz
      obtain ⟨⟨ht, hd⟩, hp⟩ := hz
      refine ⟨?_, ?_, ?_, ?_, ?_⟩
      · cases hb : titleMissingB b with
        | false => rfl
        | true => rw [titleErrors_of_missing b hb] at ht; cases ht
      · cases hb : titleTooLongB b with
        | false => rfl
        | true => rw [titleErrors_of_tooLong b hb] at ht; cases ht
      · cases hb : descNotStringB b with
        | false => rfl
        | true => rw [descriptionErrors_of_notString b hb] at hd; cases hd
      · cases hb : descTooLongB b with
        | false => rfl
        | true => rw [descriptionErrors_of_tooLong b hb] at hd; cases hd
      · cases hb : priorityInvalidB b with
        | false => rfl
        | true => rw [priorityErrors_of_invalid b hb] at hp; cases hp

/-- Witness for C6: the spec's own example body (description present,
title missing, bogus priority) yields one details list mentioning both
the missing-title rule and the invalid-priority rule. -/
theorem C6_witness :
    titleRequiredMsg ∈ ([titleRequiredMsg, priorityInvalidMsg] : List String) ∧
    priorityInvalidMsg ∈ ([titleRequiredMsg, priorityInvalidMsg] : List String) :=
  ⟨(((C6_validation_collects_all_errors
      ⟨none, some (JsVal.vstr "x"), some (JsVal.vstr "bogus")⟩).1
      [titleRequiredMsg, priorityInvalidMsg] (by rfl)).2.1 (by rfl)),
   (((C6_validation_collects_all_errors
      ⟨none, some (JsVal.vstr "x"), some (JsVal.vstr "bogus")⟩).1
      [titleRequiredMsg, priorityInvalidMsg] (by rfl)).2.2.2.2.2 (by rfl))⟩

/-- C10: a present-but-empty status or priority query parameter passes
validation (no 400), is dropped before storage by the controller, and
the whole list pipeline responds exactly as if the parameter were
absent. -/
theorem C10_empty_filter_means_no_filter :
    ∀ (st pr sb : Option String) (rows : List Task),
    (validateQueryParams ⟨some "", pr, sb⟩ = validateQueryParams ⟨none, pr, sb⟩ ∧
     listPipeline ⟨some "", pr, sb⟩ rows = listPipeline ⟨none, pr, sb⟩ rows) ∧
    (validateQueryParams ⟨st, some "", sb⟩ = validateQueryParams ⟨st, none, sb⟩ ∧
     listPipeline ⟨st, some "", sb⟩ rows = listPipeline ⟨st, none, sb⟩ rows) := by
  intro st pr sb rows
  have ht : truthy (some "") = truthy none := rfl
  have hn : truthy none = false := rfl
  have hv1 : validateQueryParams ⟨some "", pr, sb⟩ = validateQueryParams ⟨none, pr, sb⟩ := by
    simp [validateQueryParams, ht, hn]
  have hc1 : controllerFilters ⟨some "", pr, sb⟩ = controllerFilters ⟨none, pr, sb⟩ := by
    simp [controllerFilters, ht, hn]
  have hv2 : validateQueryParams ⟨st, some "", sb⟩ = validateQueryParams ⟨st, none, sb⟩ := by
    simp [validateQueryParams, ht, hn]
  have hc2 : controllerFilters ⟨st, some "", sb⟩ = controllerFilters ⟨st, none, sb⟩ := by
    simp [controllerFilters, ht, hn]
  refine ⟨⟨hv1, ?_⟩, ⟨hv2, ?_⟩⟩
  · simp only [listPipeline, hv1, hc1]
  · simp only [listPipeline, hv2, hc2]

/-! ### C8: parameterisation and the sortBy splice -/

/-- C8 as stated is false: the storage layer itself enforces no
allow-list; it splices any `sortBy` string it is given verbatim into the
SQL text.  "description" is accepted by the storage layer (it is a real
column, the query even executes) yet is not in the claimed allow-list. -/
theorem C8_counterexample :
    buildOrderByClause (some "description") = "ORDER BY description ASC" ∧
    "description" ∉ validSortFields := by
  refine ⟨rfl, ?_⟩
  decide

/-- C8 amended: all data values are bound parameters — the SQL text the
storage layer builds depends only on which filters are present and on
the sortBy string, never on the filter values — and the allow-list
{title, priority, status, createdAt} is enforced upstream by
validateQueryParams, so every sortBy that survives query validation
splices only an allow-listed column name (or nothing) into the text. -/
theorem C8_amended_parameterisation :
    (∀ f g : Filters, truthy f.status = truthy g.status → truthy f.priority = truthy g.priority →
      f.sortBy = g.sortBy → getAllTasksSql f = getAllTasksSql g) ∧
    (∀ q : Query, validateQueryParams q = [] →
      buildOrderByClause (controllerFilters q).sortBy ∈
        (["", "ORDER BY createdAt DESC", "ORDER BY title ASC", "ORDER BY priority ASC",
          "ORDER BY status ASC"] : List String)) := by
  constructor
  · intro f g h1 h2 h3
    simp only [getAllTasksSql, buildWhereClause, h1, h2, h3]
  · intro q hq
    unfold validateQueryParams at hq
    rw [List.append_eq_nil, List.append_eq_nil] at hq
    obtain ⟨⟨-, -⟩, hsort⟩ := hq
    by_cases ht : truthy q.sortBy = true
    · have hcont : validSortFields.contains (q.sortBy.getD "") = true := by
        by_contra hc
        simp only [Bool.not_eq_true] at hc
        rw [ht, hc] at hsort
        simp at hsort
      cases hsb : q.sortBy with
      | none => rw [hsb] at ht; simp [truthy] at ht
      | some s =>
        have hcf : (controllerFilters q).sortBy = some s := by
          simp only [controllerFilters]
          rw [if_pos ht, hsb]
        rw [hcf]
        rw [hsb] at hcont
        have hmem : s ∈ validSortFields := by simpa using hcont
        fin_cases hmem <;> decide
    · have hcf : (controllerFilters q).sortBy = none := by
        simp only [controllerFilters]
        rw [if_neg ht]
      rw [hcf]
      simp [buildOrderByClause]

/-- Witness for the amended C8 at a concrete validated query. -/
theorem C8_witness :
    buildOrderByClause (controllerFilters ⟨none, none, some "title"⟩).sortBy ∈
      (["", "ORDER BY createdAt DESC", "ORDER BY title ASC", "ORDER BY priority ASC",
        "ORDER BY status ASC"] : List String) :=
  C8_amended_parameterisation.2 ⟨none, none, some "title"⟩ (by rfl)

/-! ### C7: invariants of records reaching storage through the pipeline -/

theorem jsTrimList_length_le (cs : List Char) : (jsTrimList cs).length ≤ cs.length := by
  unfold jsTrimList
  have h1 : ((cs.dropWhile isJsWsChar).reverse.dropWhile isJsWsChar).length ≤
      (cs.dropWhile isJsWsChar).reverse.length := (List.dropWhile_sublist _).length_le
  have h2 : (cs.dropWhile isJsWsChar).length ≤ cs.length := (List.dropWhile_sublist _).length_le
  simp only [List.length_reverse] at h1 ⊢
  omega

theorem sanitizeString_length_le_trim (s : String) :
    (sanitizeString s).length ≤ (jsTrim s).length := by
  unfold sanitizeString jsTrim
  exact List.length_filter_le _ _

theorem sanitizeString_length_le (s : String) :
    (sanitizeString s).length ≤ s.length := by
  have h1 := sanitizeString_length_le_trim s
  have h2 : (jsTrim s).length ≤ s.length := jsTrimList_length_le s.data
  omega

/-- C7 fails as stated: the title `"<>"` passes validation (it is
non-empty after trimming) but sanitization then strips both characters,
so the record reaching storage — and stored without complaint — has an
empty title, violating the title-non-empty invariant. -/
theorem C7_counterexample :
    createPipeline [] ⟨some (JsVal.vstr "<>"), none, none⟩ "task_1_a" "2024" =
      Except.ok
        ({ id := "task_1_a", title := "", description := "", priority := "medium",
           status := "pending", createdAt := "2024" },
         [{ id := "task_1_a", title := "", description := "", priority := "medium",
            status := "pending", createdAt := "2024" }]) := by
  rfl

/-- C7 amended: every record reaching storage through a validated create
request satisfies the invariants on priority, status and the two length
bounds; the title is additionally non-empty provided the trimmed title
contains at least one character other than an angle bracket (sanitization
can otherwise empty it, as the counterexample shows). -/
theorem C7_amended_stored_invariants :
    ∀ (b b' : CreateBody) (rows : List Task) (stored : Task) (rows' : List Task) (newId ca : String),
    validateCreateTask b = Except.ok b' →
    createTask rows (toTaskInput b') newId ca = Except.ok (stored, rows') →
    stored.priority ∈ VALID_PRIORITIES ∧
    stored.status = "pending" ∧
    stored.title.length ≤ 200 ∧
    stored.description.length ≤ 1000 ∧
    (∀ s, b.title = some (JsVal.vstr s) →
      (jsTrimList s.data).any (fun c => !(c == '<' || c == '>')) = true →
      stored.title ≠ "") := by
  intro b b' rows stored rows' newId ca h1 h2
  simp only [validateCreateTask] at h1
  split at h1
  · simp at h1
  · rename_i hlen
    simp only [Except.ok.injEq] at h1
    have hz : (titleErrors b.title ++ descriptionErrors b.description ++
        priorityErrors b.priority) = [] :=
      List.eq_nil_of_length_eq_zero (Nat.eq_zero_of_not_pos hlen)
    rw [List.append_eq_nil, List.append_eq_nil] at hz
    obtain ⟨⟨hte, hde⟩, -⟩ := hz
    -- the title must be a usable string
    have htitle : ∃ s0, b.title = some (JsVal.vstr s0) ∧
        (s0 == "" || (jsTrim s0).length == 0) = false ∧ (jsTrim s0).length ≤ 200 := by
      unfold titleErrors at hte
      cases hbt : b.title with
      | none => rw [hbt] at hte; cases hte
      | some v =>
        cases v with
        | vstr s0 =>
          rw [hbt] at hte
          dsimp only at hte
          split_ifs at hte with hc1 hc2
          refine ⟨s0, rfl, ?_, ?_⟩
          · cases hx : (s0 == "" || (jsTrim s0).length == 0) with
            | false => rfl
            | true => exact absurd hx hc1
          · omega
        | vother => rw [hbt] at hte; cases hte
    obtain ⟨s0, hbt, hc1, hc2⟩ := htitle
    -- unpack the successful insert
    simp only [createTask] at h2
    split at h2
    · simp at h2
    · split at h2
      · simp at h2
      · rename_i hcheck
        simp only [Except.ok.injEq, Prod.mk.injEq] at h2
        obtain ⟨hstored, -⟩ := h2
        have hchk : (VALID_PRIORITIES.contains (jsOr (toTaskInput b').priority "medium") &&
            VALID_STATUSES.contains "pending") = true := by
          cases hx : (VALID_PRIORITIES.contains (jsOr (toTaskInput b').priority "medium") &&
              VALID_STATUSES.contains "pending") with
          | true => rfl
          | false => exact absurd (by rw [hx]; rfl) hcheck
        have hprio : VALID_PRIORITIES.contains (jsOr (toTaskInput b').priority "medium") = true :=
          (Bool.and_eq_true .. ▸ hchk).1
        subst hstored
        subst h1
        refine ⟨?_, rfl, ?_, ?_, ?_⟩
        · simpa using hprio
        · -- title length
          show ((toTaskInput
              ⟨b.title.map sanitizeJsVal, sanitizeDescription b.description, b.priority⟩).title).length ≤ 200
          rw [hbt]
          simp only [toTaskInput, Option.map_some', sanitizeJsVal, jsValStr, Option.getD_some]
          have := sanitizeString_length_le_trim s0
          omega
        · -- description length
          show (jsOr (toTaskInput
              ⟨b.title.map sanitizeJsVal, sanitizeDescription b.description, b.priority⟩).description "").length ≤ 1000
          cases hbd : b.description with
          | none => simp [toTaskInput, sanitizeDescription, hbd, jsOr]
          | some v =>
            cases v with
            | vstr sd =>
              have hlen1000 : sd.length ≤ 1000 := by
                unfold descriptionErrors at hde
                rw [hbd] at hde
                dsimp only at hde
                split_ifs at hde with hgt
                omega
              by_cases hsd : (sd == "") = true
              · have : sd = "" := by simpa using hsd
                subst this
                simp [toTaskInput, sanitizeDescription, hbd, jsOr, jsValStr]
              · have hsd' : (sd == "") = false := by
                  cases hx : (sd == "") with
                  | false => rfl
                  | true => exact absurd hx hsd
                simp only [sanitizeDescription, hbd, hsd', Bool.false_eq_true, if_false,
                  toTaskInput, Option.map_some', jsValStr]
                unfold jsOr
                dsimp only
                split_ifs
                · decide
                · have h3 := sanitizeString_length_le sd
                  omega
            | vother =>
              unfold descriptionErrors at hde
              rw [hbd] at hde
              cases hde
        · -- title non-emptiness under the amended proviso
          intro s hs hany
          rw [hbt] at hs
          have hss : s0 = s := by
            injection hs with hs2
            injection hs2
          subst hss
          show ((toTaskInput
              ⟨b.title.map sanitizeJsVal, sanitizeDescription b.description, b.priority⟩).title) ≠ ""
          rw [hbt]
          simp only [toTaskInput, Option.map_some', sanitizeJsVal, jsValStr, Option.getD_some]
          intro hempty
          have hdata := congrArg String.data hempty
          simp only [sanitizeString] at hdata
          have hnil : (jsTrimList s0.data).filter (fun c => !(c == '<' || c == '>')) = [] := hdata
          obtain ⟨c, hc, hq⟩ := List.any_eq_true.mp hany
          exact absurd hq (by simpa using (List.filter_eq_nil_iff.mp hnil) c hc)

/-- Witness for the amended C7 at a concrete validated request. -/
theorem C7_witness :
    ({ id := "task_1_a", title := "Buy milk", description := "", priority := "low",
       status := "pending", createdAt := "2024" } : Task).priority ∈ VALID_PRIORITIES :=
  (C7_amended_stored_invariants
    ⟨some (JsVal.vstr "Buy milk"), none, some (JsVal.vstr "low")⟩
    ⟨some (JsVal.vstr "Buy milk"), none, some (JsVal.vstr "low")⟩
    []
    { id := "task_1_a", title := "Buy milk", description := "", priority := "low",
      status := "pending", createdAt := "2024" }
    [{ id := "task_1_a", title := "Buy milk", description := "", priority := "low",
       status := "pending", createdAt := "2024" }]
    "task_1_a" "2024" (by rfl) (by rfl)).1

/-! ### C9: shape of the generated ids -/

theorem digitChar_digits : ∀ m < 10, isDigitChar (Nat.digitChar m) = true := by decide

theorem toDigitsCore_digits :
    ∀ (fuel n : Nat) (acc : List Char), (∀ c ∈ acc, isDigitChar c = true) →
    ∀ c ∈ Nat.toDigitsCore 10 fuel n acc, isDigitChar c = true := by
  intro fuel
  induction fuel with
  | zero => intro n acc hacc; exact hacc
  | succ fuel ih =>
    intro n acc hacc c hc
    simp only [Nat.toDigitsCore] at hc
    have hdig : isDigitChar (Nat.digitChar (n % 10)) = true :=
      digitChar_digits (n % 10) (Nat.mod_lt n (by decide))
    have hacc' : ∀ x ∈ Nat.digitChar (n % 10) :: acc, isDigitChar x = true := by
      intro x hx
      rcases List.mem_cons.mp hx with h | h
      · rw [h]; exact hdig
      · exact hacc x h
    split at hc
    · exact hacc' c hc
    · exact ih (n / 10) _ hacc' c hc

theorem toDigitsCore_ne_nil :
    ∀ (fuel n : Nat) (acc : List Char), acc ≠ [] → Nat.toDigitsCore 10 fuel n acc ≠ [] := by
  intro fuel
  induction fuel with
  | zero => intro n acc hacc; exact hacc
  | succ fuel ih =>
    intro n acc hacc
    simp only [Nat.toDigitsCore]
    split
    · simp
    · exact ih (n / 10) _ (by simp)

theorem repr_data_digits (n : Nat) : ∀ c ∈ (Nat.repr n).data, isDigitChar c = true := by
  have hd : (Nat.repr n).data = Nat.toDigitsCore 10 (n + 1) n [] := rfl
  rw [hd]
  exact toDigitsCore_digits (n + 1) n [] (by intro c h; cases h)

theorem repr_data_ne_nil (n : Nat) : (Nat.repr n).data ≠ [] := by
  have hd : (Nat.repr n).data = Nat.toDigitsCore 10 (n + 1) n [] := rfl
  rw [hd]
  simp only [Nat.toDigitsCore]
  split
  · simp
  · exact toDigitsCore_ne_nil n (n / 10) _ (by simp)

theorem takeWhile_dropWhile_split {α : Type} (p : α → Bool) :
    ∀ (l1 : List α) (x : α) (l2 : List α), (∀ c ∈ l1, p c = true) → p x = false →
    (l1 ++ x :: l2).takeWhile p = l1 ∧ (l1 ++ x :: l2).dropWhile p = x :: l2 := by
  intro l1
  induction l1 with
  | nil =>
    intro x l2 _ hx
    constructor
    · simp [List.takeWhile_cons, hx]
    · simp [List.dropWhile_cons, hx]
  | cons a l1 ih =>
    intro x l2 hall hx
    have ha : p a = true := hall a (List.mem_cons_self a l1)
    have ih' := ih x l2 (fun c hc => hall c (List.mem_cons_of_mem a hc)) hx
    constructor
    · simp [List.takeWhile_cons, ha, ih'.1]
    · simp [List.dropWhile_cons, ha, ih'.2]

theorem suffix_eq (ds : List Nat) :
    jsSubstr (randToString36 ds) 2 9 = ⟨(ds.take 9).map digitChar36⟩ := by
  unfold jsSubstr randToString36
  cases ds with
  | nil => rfl
  | cons d ds =>
    simp only [List.isEmpty_cons, Bool.false_eq_true, if_false]
    have hdata : ("0." ++ (⟨(d :: ds).map digitChar36⟩ : String)).data =
        '0' :: '.' :: (d :: ds).map digitChar36 := by
      rw [String.data_append]
      rfl
    rw [hdata]
    show String.mk (((d :: ds).map digitChar36).take 9) =
      String.mk (((d :: ds).take 9).map digitChar36)
    rw [List.map_take]

theorem digitChar36_lowerAlnum : ∀ d < 36, isLowerAlnumChar (digitChar36 d) = true := by decide

theorem digitChar36_inj : ∀ a < 36, ∀ b < 36, digitChar36 a = digitChar36 b → a = b := by decide

theorem map_digitChar36_inj :
    ∀ (l l' : List Nat), (∀ d ∈ l, d < 36) → (∀ d ∈ l', d < 36) →
    l.map digitChar36 = l'.map digitChar36 → l = l' := by
  intro l
  induction l with
  | nil =>
    intro l' _ _ h
    cases l' with
    | nil => rfl
    | cons b l' => simp at h
  | cons a l ih =>
    intro l' hl hl' h
    cases l' with
    | nil => simp at h
    | cons b l'2 =>
      simp only [List.map_cons, List.cons.injEq] at h
      have hab : a = b :=
        digitChar36_inj a (hl a (List.mem_cons_self a l)) b (hl' b (List.mem_cons_self b l'2)) h.1
      have htl : l = l'2 :=
        ih l'2 (fun d hd => hl d (List.mem_cons_of_mem a hd))
          (fun d hd => hl' d (List.mem_cons_of_mem b hd)) h.2
      rw [hab, htl]

theorem generateId_data (now : Nat) (ds : List Nat) :
    (generateId now ds).data =
      't' :: 'a' :: 's' :: 'k' :: '_' ::
        ((Nat.repr now).data ++ '_' :: (ds.take 9).map digitChar36) := by
  unfold generateId
  rw [suffix_eq]
  rw [String.data_append, String.data_append, String.data_append]
  simp

theorem isValidIdChars_split (reprD suffix : List Char)
    (hrepr : ∀ c ∈ reprD, isDigitChar c = true) (hne : reprD ≠ [])
    (hsuf : ∀ c ∈ suffix, isLowerAlnumChar c = true) :
    isValidIdChars ('t' :: 'a' :: 's' :: 'k' :: '_' :: (reprD ++ '_' :: suffix)) =
      !suffix.isEmpty := by
  obtain ⟨ht, hd⟩ := takeWhile_dropWhile_split isDigitChar reprD '_' suffix hrepr (by decide)
  simp only [isValidIdChars]
  rw [ht, hd]
  have h1 : reprD.isEmpty = false := by
    cases reprD with
    | nil => exact absurd rfl hne
    | cons a l => rfl
  have h2 : suffix.all isLowerAlnumChar = true := List.all_eq_true.mpr hsuf
  rw [h1]
  show (!false && (!suffix.isEmpty && suffix.all isLowerAlnumChar)) = !suffix.isEmpty
  rw [h2]
  cases suffix.isEmpty <;> rfl

/-- C9 fails as stated: `Math.random().toString(36)` does not always
carry nine fraction digits.  When the draw is exactly 0 (a value
`Math.random` can return) the printed form is `"0"`, `substr(2, 9)`
yields the empty suffix, and the generated id does not match the id
validation pattern (which requires a non-empty suffix). -/
theorem C9_counterexample :
    generateId 1703123456789 [] = "task_1703123456789_" ∧
    isValidId (generateId 1703123456789 []) = false ∧
    (jsSubstr (randToString36 []) 2 9).length ≠ 9 := by
  refine ⟨rfl, rfl, by decide⟩

/-- C9 amended: the random suffix is the first `min 9 k` base-36
fraction digits of the draw (so at most nine, not always nine); the
generated id matches the id validation pattern exactly when the draw has
at least one fraction digit; and two ids generated in the same
millisecond coincide exactly when the first nine fraction digits of
their draws coincide — distinctness is likely but not guaranteed. -/
theorem C9_amended_id_shape :
    ∀ (now : Nat) (ds : List Nat), (∀ d ∈ ds, d < 36) →
    (jsSubstr (randToString36 ds) 2 9).length = min 9 ds.length ∧
    (isValidId (generateId now ds) = true ↔ ds ≠ []) ∧
    (∀ ds' : List Nat, (∀ d ∈ ds', d < 36) →
      (generateId now ds = generateId now ds' ↔ ds.take 9 = ds'.take 9)) := by
  intro now ds hds
  refine ⟨?_, ?_, ?_⟩
  · rw [suffix_eq]
    show ((ds.take 9).map digitChar36).length = min 9 ds.length
    rw [List.length_map, List.length_take]
  · unfold isValidId
    rw [generateId_data]
    rw [isValidIdChars_split ((Nat.repr now).data) ((ds.take 9).map digitChar36)
      (repr_data_digits now) (repr_data_ne_nil now)
      (by
        intro c hc
        obtain ⟨d, hd, hcd⟩ := List.mem_map.mp hc
        rw [← hcd]
        exact digitChar36_lowerAlnum d (hds d (List.take_subset 9 ds hd)))]
    cases ds with
    | nil => simp
    | cons d ds => simp
  · intro ds' hds'
    constructor
    · intro h
      have hdata := congrArg String.data h
      rw [generateId_data, generateId_data] at hdata
      simp only [List.cons.injEq, true_and] at hdata
      have hsfx : '_' :: (ds.take 9).map digitChar36 = '_' :: (ds'.take 9).map digitChar36 :=
        List.append_cancel_left hdata
      simp only [List.cons.injEq, true_and] at hsfx
      exact map_digitChar36_inj _ _
        (fun d hd => hds d (List.take_subset 9 ds hd))
        (fun d hd => hds' d (List.take_subset 9 ds' hd)) hsfx
    · intro h
      unfold generateId
      rw [suffix_eq, suffix_eq, h]

/-- Witness for the amended C9 at a concrete draw. -/
theorem C9_witness :
    (jsSubstr (randToString36 [10, 2, 3]) 2 9).length = min 9 3 :=
  (C9_amended_id_shape 7 [10, 2, 3] (by decide)).1

end TaskApi
